import Mathlib

/-!
# Verification of the slack-r date/scheduling core

A shallow embedding of the date-resolution, duplicate-guard, member-selection
and pagination logic of the slack-r bot (`src/bot/mod.rs`, `src/dates.rs`),
together with theorems settling the specification's claims about it.

Modelling conventions:
* `chrono::DateTime<Local>` is modelled as `LocalDateTime`: a day number
  (days since 1970-01-01) plus a time-of-day in seconds.  A fixed local
  offset is assumed (no DST transitions), so comparing instants coincides
  with comparing `day * 86400 + tod`.
* `rand::thread_rng` / `SliceRandom::choose` is modelled by an explicit
  seed argument: `choose` on a slice of length `n` returns the element at
  `seed % n`, and `none` on the empty slice.  Quantifying over all seeds
  covers every possible random outcome.
* Rust panics (`unwrap`, `panic!`) are modelled as `Option.none` /
  dedicated error constructors, as noted on each definition.
* The Slack API is an external collaborator; the pagination loops are
  modelled against an arbitrary deterministic response function
  `Option String → ListPageResponse α` (request cursor ↦ response), with a
  fuel parameter: `none` means the loop did not finish within the fuel.
-/

/-- Days of the week, as in `chrono::Weekday`. -/
inductive Weekday where
  | mon | tue | wed | thu | fri | sat | sun
  deriving DecidableEq, Repr

/-- Weekday of a day number (days since 1970-01-01, which was a Thursday).
Mirrors `chrono::Datelike::weekday`. -/
def dayOfWeek (d : Int) : Weekday :=
  match ((d + 3) % 7).toNat with
  | 0 => .mon
  | 1 => .tue
  | 2 => .wed
  | 3 => .thu
  | 4 => .fri
  | 5 => .sat
  | _ => .sun

/-- Model of `chrono::DateTime<Local>` under a fixed local offset:
`day` is the local calendar date as a day number (days since 1970-01-01),
`tod` the local time of day in seconds. -/
structure LocalDateTime where
  day : Int
  tod : Int
  deriving DecidableEq, Repr

/-- The instant of a `LocalDateTime`, up to the constant local offset.
`DateTime<Local>` comparisons (`<`, `<=`, `==`, `.timestamp()`) compare this. -/
def timestamp (dt : LocalDateTime) : Int :=
  dt.day * 86400 + dt.tod

/-- `DateTime + Duration::days(k)` (a fixed-offset model: adding whole days
changes the calendar date and keeps the wall-clock time). -/
def addDays (dt : LocalDateTime) (k : Int) : LocalDateTime :=
  { dt with day := dt.day + k }

/-- Gregorian leap year, as in chrono. -/
def isLeapYear (y : Int) : Bool :=
  y % 4 == 0 && (y % 100 != 0 || y % 400 == 0)

/-- Number of days in a month. -/
def daysInMonth (y m : Int) : Int :=
  if m == 2 then (if isLeapYear y then 29 else 28)
  else if m == 4 || m == 6 || m == 9 || m == 11 then 30
  else 31

/-- Validity of a Gregorian calendar date (what `chrono` accepts for
`%Y-%m-%d`: `2022-02-31` is rejected). -/
def isValidDate (y m d : Int) : Bool :=
  1 ≤ m && m ≤ 12 && 1 ≤ d && d ≤ daysInMonth y m

/-- Day number (days since 1970-01-01) of a Gregorian date — the standard
days-from-civil algorithm, matching `chrono::NaiveDate`. -/
def daysFromCivil (y m d : Int) : Int :=
  let y' := if m ≤ 2 then y - 1 else y
  let era := y' / 400
  let yoe := y' - era * 400
  let mp := (m + 9) % 12
  let doy := (153 * mp + 2) / 5 + d - 1
  let doe := yoe * 365 + yoe / 4 - yoe / 100 + doy
  era * 146097 + doe - 719468

/-- Split a character list on `-` (used to model parsing of `YYYY-MM-DD`). -/
def splitDash : List Char → List (List Char)
  | [] => [[]]
  | c :: rest =>
    let r := splitDash rest
    if c = '-' then [] :: r
    else
      match r with
      | [] => [[c]]
      | g :: gs => (c :: g) :: gs

/-- Numeric value of a digit list. -/
def natOfDigits (cs : List Char) : Nat :=
  cs.foldl (fun a c => a * 10 + (c.toNat - 48)) 0

/-- Parse a date string of the form `YYYY-MM-DD` into (year, month, day);
`none` models a `chrono` parse failure.  Mirrors what
`"{date} {time} {offset}".parse::<DateTime<Local>>()` accepts of the date
part in `convert_date_string_to_local`. -/
def parseYMD (s : String) : Option (Int × Int × Int) :=
  match splitDash s.data with
  | [ys, ms, ds] =>
    if ys.length == 4 && ms.length == 2 && ds.length == 2
        && ys.all Char.isDigit && ms.all Char.isDigit && ds.all Char.isDigit then
      let y : Int := natOfDigits ys
      let m : Int := natOfDigits ms
      let d : Int := natOfDigits ds
      if isValidDate y m d then some (y, m, d) else none
    else none
  | _ => none

/-- `dates::convert_date_string_to_local`: parse `input_date` as
`YYYY-MM-DD` and attach the time-of-day (and offset) of `time`.
Returns a `String` error on parse failure. -/
def convert_date_string_to_local (input_date : String) (time : LocalDateTime) :
    Except String LocalDateTime :=
  match parseYMD input_date with
  | some (y, m, d) => .ok ⟨daysFromCivil y m d, time.tod⟩
  | none => .error "Not a date"

/-- `dates::validate_date_input` with `now = Local::now()`: parse the input
with the current time-of-day, then require it strictly after `now` and
strictly before `now + 120 days`. -/
def validate_date_input (input_date : String) (now : LocalDateTime) :
    Except String Unit :=
  match convert_date_string_to_local input_date now with
  | .error e => .error e
  | .ok parsed_date =>
    if timestamp parsed_date ≤ timestamp now then
      .error ("Date " ++ input_date ++ " must be in the future")
    else if timestamp (addDays now 120) ≤ timestamp parsed_date then
      .error ("Date " ++ input_date ++ " must not be more than 120 days in the future")
    else .ok ()

/-- The weekend shift applied by `get_target_dates` to each unfiltered
target date: Saturday → +2 days, Sunday → +1 day, otherwise unchanged. -/
def weekend_shift (dt : LocalDateTime) : LocalDateTime :=
  match dayOfWeek dt.day with
  | .sat => addDays dt 2
  | .sun => addDays dt 1
  | _ => dt

/-- The parsing loop of `get_target_dates`: each input string goes through
`convert_date_string_to_local(...).unwrap()`; the panic of `unwrap` on the
first unparseable string aborts everything, modelled by `none`. -/
def parse_all (time : LocalDateTime) : List String → Option (List LocalDateTime)
  | [] => some []
  | s :: rest =>
    match convert_date_string_to_local s time with
    | .error _ => none
    | .ok d =>
      match parse_all time rest with
      | none => none
      | some ds => some (d :: ds)

/-- `SlackBot::get_target_dates`: with no inputs, tomorrow at
`target_time`; otherwise each input parsed at `target_time` (panic on
failure modelled by `none`); then the weekend shift applied to every date.
`todayDay` is the day number of `Local::today()`. -/
def get_target_dates (target_time : Int) (todayDay : Int) (input_date_args : List String) :
    Option (List LocalDateTime) :=
  let today_with_target_time : LocalDateTime := ⟨todayDay, target_time⟩
  let unfiltered_dates :=
    if input_date_args.isEmpty then
      some [⟨todayDay + 1, target_time⟩]
    else
      parse_all today_with_target_time input_date_args
  match unfiltered_dates with
  | none => none
  | some l => some (l.map weekend_shift)

/-- Failure modes of `get_post_at_date`: the `unwrap` panic on an
unparseable `post_on` argument, and the `panic!("Scheduled time is after
the target day!")` on an out-of-order explicit post date. -/
inductive PostAtError where
  | invalidDateFormat
  | schedulingOrderViolation
  deriving DecidableEq, Repr

/-- `SlackBot::get_post_at_date`: with an explicit `post_on` day, parse it
at `post_time` and require it strictly before the target (else panic);
otherwise subtract `advance_days` days from the target and back-shift a
Sunday by 2 days and a Saturday by 1 day. -/
def get_post_at_date (advance_days : Int) (post_time : Int) (todayDay : Int)
    (target_date : LocalDateTime) (post_on_day_arg : Option String) :
    Except PostAtError LocalDateTime :=
  match post_on_day_arg with
  | some post_on_day =>
    match convert_date_string_to_local post_on_day ⟨todayDay, post_time⟩ with
    | .error _ => .error .invalidDateFormat
    | .ok post_at_time =>
      if timestamp post_at_time < timestamp target_date then .ok post_at_time
      else .error .schedulingOrderViolation
  | none =>
    let unfiltered := addDays target_date (-advance_days)
    match dayOfWeek unfiltered.day with
    | .sun => .ok (addDays unfiltered (-2))
    | .sat => .ok (addDays unfiltered (-1))
    | _ => .ok unfiltered

/-- `SlackBot::select_random_member`: `members.choose(&mut rng)`, with the
random generator modelled by an explicit seed — the element at index
`seed % members.length`, `none` exactly on the empty roster. -/
def select_random_member (members : List String) (seed : Nat) : Option String :=
  members.get? (seed % members.length)

/-- Per-target outcome of an iteration of the `joke` loop. -/
inductive JokeOutcome where
  | tooLate
  | alreadyScheduledRemote
  | alreadyScheduledLocal
  | noMemberAvailable
  | scheduled (member : String) (post_at : LocalDateTime)
  deriving DecidableEq, Repr

/-- The body of the `joke` loop for one candidate, after `get_post_at_date`:
the past-deadline check, the remote duplicate check (calendar-date equality
against already scheduled messages), the local duplicate check (timestamp
equality against the batch's `messages_to_schedule`), then member
selection.  `already` holds the `post_at` instants of the remote
`ScheduledMessageObject`s (their `.date()` is the `day` field). -/
def joke_step (now : LocalDateTime) (already : List LocalDateTime)
    (members : List String) (in_progress : List Int) (seed : Nat)
    (post_at : LocalDateTime) : JokeOutcome :=
  if timestamp post_at ≤ timestamp now then .tooLate
  else if already.any (fun mess => mess.day == post_at.day) then .alreadyScheduledRemote
  else if in_progress.any (fun r_post_at => r_post_at == timestamp post_at) then
    .alreadyScheduledLocal
  else
    match select_random_member members (seed) with
    | none => .noMemberAvailable
    | some m => .scheduled m post_at

/-- The `joke` loop over the resolved target dates, threading
`messages_to_schedule` (`in_progress`): a candidate that passes every
check is recorded there; every other outcome just moves on to the next
target date (`continue`).  A panic inside `get_post_at_date` aborts the
whole batch (`none`).  `seeds i` models the rng draw of iteration `i`. -/
def joke_go (advance_days : Int) (post_time : Int) (todayDay : Int)
    (now : LocalDateTime) (already : List LocalDateTime) (members : List String)
    (post_on : Option String) (seeds : Nat → Nat) :
    Nat → List Int → List LocalDateTime → Option (List (LocalDateTime × JokeOutcome))
  | _, _, [] => some []
  | i, in_progress, target_date :: rest =>
    match get_post_at_date advance_days post_time todayDay target_date post_on with
    | .error _ => none
    | .ok post_at =>
      let outcome := joke_step now already members in_progress (seeds i) post_at
      let in_progress' :=
        match outcome with
        | .scheduled _ _ => in_progress ++ [timestamp post_at]
        | _ => in_progress
      match joke_go advance_days post_time todayDay now already members post_on seeds
          (i + 1) in_progress' rest with
      | none => none
      | some outs => some ((target_date, outcome) :: outs)

/-- `SlackBot::joke`: resolve the target dates, then run the batch loop
with an empty `messages_to_schedule`. -/
def joke (advance_days : Int) (target_time post_time : Int) (todayDay : Int)
    (now : LocalDateTime) (already : List LocalDateTime) (members : List String)
    (input_date_args : List String) (post_on : Option String) (seeds : Nat → Nat) :
    Option (List (LocalDateTime × JokeOutcome)) :=
  match get_target_dates target_time todayDay input_date_args with
  | none => none
  | some target_datetimes =>
    joke_go advance_days post_time todayDay now already members post_on seeds
      0 [] target_datetimes

/-- Result of the `reroll` selection loop.  `allExcluded` carries the
exclude list at the moment the loop printed "You have excluded all
members!" and returned.  `outOfFuel` marks exhaustion of the modelled
rng/decision streams, not a program outcome. -/
inductive RerollResult where
  | accepted (member : String)
  | noMemberAvailable
  | allExcluded (exclude : List String)
  | outOfFuel
  deriving DecidableEq, Repr

/-- The `reroll` selection loop: draw a member with `select_random_member`
(one seed per iteration); a draw already in `exclude` re-rolls silently; a
fresh draw is offered to the user (one decision per offer: `true` =
accept).  On rejection the member joins `exclude`, and the loop stops with
"You have excluded all members!" as soon as `exclude.length + 1` equals
the roster length. -/
def reroll_go (members : List String) (len_limit : Nat) (exclude : List String) :
    List Nat → List Bool → RerollResult
  | [], _ => .outOfFuel
  | seed :: seeds, decisions =>
    match select_random_member members seed with
    | none => .noMemberAvailable
    | some selected_member =>
      if exclude.contains selected_member then
        reroll_go members len_limit exclude seeds decisions
      else
        match decisions with
        | [] => .outOfFuel
        | d :: ds =>
          if d then .accepted selected_member
          else
            let exclude' := exclude ++ [selected_member]
            if exclude'.length + 1 == len_limit then .allExcluded exclude'
            else reroll_go members len_limit exclude' seeds ds

/-- `SlackBot::reroll`, selection phase: loop from an empty exclude list
with `len_limit = members.length`. -/
def reroll (members : List String) (seeds : List Nat) (decisions : List Bool) :
    RerollResult :=
  reroll_go members members.length [] seeds decisions

/-- `response_metadata` of a Slack list response. -/
structure ResponseMetadata where
  next_cursor : Option String
  deriving DecidableEq, Repr

/-- `SlackApiContent`: the tagged success/error union of a response. -/
inductive SlackApiContent (α : Type) where
  | ok (v : α)
  | err (e : String)
  deriving DecidableEq, Repr

/-- One page response of a paginated list endpoint: the content (a page of
items on success) and the optional `response_metadata`. -/
structure ListPageResponse (α : Type) where
  content : SlackApiContent (List α)
  response_metadata : Option ResponseMetadata
  deriving DecidableEq, Repr

/-- The pagination loop of `SlackBot::list_scheduled_messages`, run with
`fuel` iterations against a deterministic API `api : cursor ↦ response`:
on error, break with the accumulated items; on success, extend the
accumulator, then follow `response_metadata.next_cursor` (absent or empty
cursor → break; no metadata → loop again with the request unchanged).
`none` means the loop did not finish within `fuel` iterations. -/
def list_scheduled_messages_go {α : Type} (api : Option String → ListPageResponse α) :
    Nat → Option String → List α → Option (List α)
  | 0, _, _ => none
  | fuel + 1, cursor, acc =>
    match api cursor with
    | ⟨.err _, _⟩ => some acc
    | ⟨.ok page, md⟩ =>
      match md with
      | none => list_scheduled_messages_go api fuel cursor (acc ++ page)
      | some metadata =>
        match metadata.next_cursor with
        | none => some (acc ++ page)
        | some next_cursor =>
          if next_cursor.isEmpty then some (acc ++ page)
          else list_scheduled_messages_go api fuel (some next_cursor) (acc ++ page)

/-- The pagination loop of `SlackBot::list_members_for_channel`: identical
cursor handling, but an error response returns `Err` instead of breaking
with the partial list. -/
def list_members_for_channel_go (api : Option String → ListPageResponse String) :
    Nat → Option String → List String → Option (Except String (List String))
  | 0, _, _ => none
  | fuel + 1, cursor, acc =>
    match api cursor with
    | ⟨.err e, _⟩ => some (.error e)
    | ⟨.ok page, md⟩ =>
      match md with
      | none => list_members_for_channel_go api fuel cursor (acc ++ page)
      | some metadata =>
        match metadata.next_cursor with
        | none => some (.ok (acc ++ page))
        | some next_cursor =>
          if next_cursor.isEmpty then some (.ok (acc ++ page))
          else list_members_for_channel_go api fuel (some next_cursor) (acc ++ page)

/-- A response on which the pagination loops stop: an error, or a success
whose metadata carries an absent or empty `next_cursor`. -/
def terminalResponse {α : Type} (r : ListPageResponse α) : Bool :=
  match r.content with
  | .err _ => true
  | .ok _ =>
    match r.response_metadata with
    | none => false
    | some metadata =>
      match metadata.next_cursor with
      | none => true
      | some next_cursor => next_cursor.isEmpty

/-- The cursor the loops use for the next request after seeing the
response at `cursor` (unchanged unless a successful response carries a
nonempty `next_cursor`). -/
def advanceCursor {α : Type} (api : Option String → ListPageResponse α)
    (cursor : Option String) : Option String :=
  match api cursor with
  | ⟨.err _, _⟩ => cursor
  | ⟨.ok _, md⟩ =>
    match md with
    | none => cursor
    | some metadata =>
      match metadata.next_cursor with
      | none => cursor
      | some next_cursor => if next_cursor.isEmpty then cursor else some next_cursor

/-- The sequence of request cursors the loops walk through. -/
def chainFrom {α : Type} (api : Option String → ListPageResponse α) :
    Option String → Nat → Option String
  | c, 0 => c
  | c, n + 1 => chainFrom api (advanceCursor api c) n

/-! ## Weekday arithmetic helpers -/

lemma emod7_cases (d : Int) :
    (d + 3) % 7 = 0 ∨ (d + 3) % 7 = 1 ∨ (d + 3) % 7 = 2 ∨ (d + 3) % 7 = 3 ∨
    (d + 3) % 7 = 4 ∨ (d + 3) % 7 = 5 ∨ (d + 3) % 7 = 6 := by
  omega

lemma dayOfWeek_mon {d : Int} (h : (d + 3) % 7 = 0) : dayOfWeek d = .mon := by
  unfold dayOfWeek; rw [h]; rfl

lemma dayOfWeek_tue {d : Int} (h : (d + 3) % 7 = 1) : dayOfWeek d = .tue := by
  unfold dayOfWeek; rw [h]; rfl

lemma dayOfWeek_wed {d : Int} (h : (d + 3) % 7 = 2) : dayOfWeek d = .wed := by
  unfold dayOfWeek; rw [h]; rfl

lemma dayOfWeek_thu {d : Int} (h : (d + 3) % 7 = 3) : dayOfWeek d = .thu := by
  unfold dayOfWeek; rw [h]; rfl

lemma dayOfWeek_fri {d : Int} (h : (d + 3) % 7 = 4) : dayOfWeek d = .fri := by
  unfold dayOfWeek; rw [h]; rfl

lemma dayOfWeek_sat {d : Int} (h : (d + 3) % 7 = 5) : dayOfWeek d = .sat := by
  unfold dayOfWeek; rw [h]; rfl

lemma dayOfWeek_sun {d : Int} (h : (d + 3) % 7 = 6) : dayOfWeek d = .sun := by
  unfold dayOfWeek; rw [h]; rfl

/-- `weekend_shift` evaluated on each weekday class, with the weekday of
the result. -/
lemma weekend_shift_cases (dt : LocalDateTime) :
    (dayOfWeek dt.day = .sat →
      weekend_shift dt = addDays dt 2 ∧ dayOfWeek (dt.day + 2) = .mon) ∧
    (dayOfWeek dt.day = .sun →
      weekend_shift dt = addDays dt 1 ∧ dayOfWeek (dt.day + 1) = .mon) ∧
    (dayOfWeek dt.day ≠ .sat → dayOfWeek dt.day ≠ .sun → weekend_shift dt = dt) := by
  rcases emod7_cases dt.day with h | h | h | h | h | h | h
  · have hd := dayOfWeek_mon h
    refine ⟨fun hc => ?_, fun hc => ?_, fun _ _ => ?_⟩ <;>
      first
        | (rw [hd] at hc; exact absurd hc (by decide))
        | (unfold weekend_shift; rw [hd])
  · have hd := dayOfWeek_tue h
    refine ⟨fun hc => ?_, fun hc => ?_, fun _ _ => ?_⟩ <;>
      first
        | (rw [hd] at hc; exact absurd hc (by decide))
        | (unfold weekend_shift; rw [hd])
  · have hd := dayOfWeek_wed h
    refine ⟨fun hc => ?_, fun hc => ?_, fun _ _ => ?_⟩ <;>
      first
        | (rw [hd] at hc; exact absurd hc (by decide))
        | (unfold weekend_shift; rw [hd])
  · have hd := dayOfWeek_thu h
    refine ⟨fun hc => ?_, fun hc => ?_, fun _ _ => ?_⟩ <;>
      first
        | (rw [hd] at hc; exact absurd hc (by decide))
        | (unfold weekend_shift; rw [hd])
  · have hd := dayOfWeek_fri h
    refine ⟨fun hc => ?_, fun hc => ?_, fun _ _ => ?_⟩ <;>
      first
        | (rw [hd] at hc; exact absurd hc (by decide))
        | (unfold weekend_shift; rw [hd])
  · have hd := dayOfWeek_sat h
    refine ⟨fun _ => ⟨?_, ?_⟩, fun hc => ?_, fun hne _ => ?_⟩
    · unfold weekend_shift; rw [hd]
    · exact dayOfWeek_mon (by omega)
    · rw [hd] at hc; exact absurd hc (by decide)
    · exact absurd hd hne
  · have hd := dayOfWeek_sun h
    refine ⟨fun hc => ?_, fun _ => ⟨?_, ?_⟩, fun _ hne => ?_⟩
    · rw [hd] at hc; exact absurd hc (by decide)
    · unfold weekend_shift; rw [hd]
    · exact dayOfWeek_mon (by omega)
    · exact absurd hd hne

/-- The result of `weekend_shift` is never on a weekend, and its
time-of-day is that of its argument. -/
lemma weekend_shift_not_weekend (dt : LocalDateTime) :
    dayOfWeek (weekend_shift dt).day ≠ .sat ∧
    dayOfWeek (weekend_shift dt).day ≠ .sun ∧
    (weekend_shift dt).tod = dt.tod := by
  obtain ⟨hsat, hsun, hother⟩ := weekend_shift_cases dt
  rcases emod7_cases dt.day with h | h | h | h | h | h | h
  · rw [hother (by rw [dayOfWeek_mon h]; decide) (by rw [dayOfWeek_mon h]; decide)]
    rw [dayOfWeek_mon h]; exact ⟨by decide, by decide, rfl⟩
  · rw [hother (by rw [dayOfWeek_tue h]; decide) (by rw [dayOfWeek_tue h]; decide)]
    rw [dayOfWeek_tue h]; exact ⟨by decide, by decide, rfl⟩
  · rw [hother (by rw [dayOfWeek_wed h]; decide) (by rw [dayOfWeek_wed h]; decide)]
    rw [dayOfWeek_wed h]; exact ⟨by decide, by decide, rfl⟩
  · rw [hother (by rw [dayOfWeek_thu h]; decide) (by rw [dayOfWeek_thu h]; decide)]
    rw [dayOfWeek_thu h]; exact ⟨by decide, by decide, rfl⟩
  · rw [hother (by rw [dayOfWeek_fri h]; decide) (by rw [dayOfWeek_fri h]; decide)]
    rw [dayOfWeek_fri h]; exact ⟨by decide, by decide, rfl⟩
  · obtain ⟨hs, hm⟩ := hsat (dayOfWeek_sat h)
    rw [hs]
    exact ⟨by show dayOfWeek (dt.day + 2) ≠ _; rw [hm]; decide,
      by show dayOfWeek (dt.day + 2) ≠ _; rw [hm]; decide, rfl⟩
  · obtain ⟨hs, hm⟩ := hsun (dayOfWeek_sun h)
    rw [hs]
    exact ⟨by show dayOfWeek (dt.day + 1) ≠ _; rw [hm]; decide,
      by show dayOfWeek (dt.day + 1) ≠ _; rw [hm]; decide, rfl⟩

/-! ## Claims -/

/-- C8: for every calendar date, the weekend shift of `get_target_dates`
is idempotent, and the shifted date's weekday is never Saturday or
Sunday. -/
theorem c8_weekend_shift_idempotent (dt : LocalDateTime) :
    weekend_shift (weekend_shift dt) = weekend_shift dt ∧
    dayOfWeek (weekend_shift dt).day ≠ .sat ∧
    dayOfWeek (weekend_shift dt).day ≠ .sun := by
  obtain ⟨hs, hn, _⟩ := weekend_shift_not_weekend dt
  refine ⟨?_, hs, hn⟩
  obtain ⟨_, _, hother⟩ := weekend_shift_cases (weekend_shift dt)
  exact hother hs hn

/-- C1: with no explicit post-on override, `get_post_at_date` on a weekday
target with `advance_days ≥ 0` returns the target minus `advance_days`
days (same time-of-day), shifted back 2 more days when that naive result
is a Sunday and 1 when it is a Saturday, and the result's weekday is never
Saturday or Sunday. -/
theorem c1_get_post_at_date_weekday (advance_days post_time todayDay : Int)
    (t : LocalDateTime) (hadv : 0 ≤ advance_days)
    (hw1 : dayOfWeek t.day ≠ .sat) (hw2 : dayOfWeek t.day ≠ .sun) :
    ∃ r, get_post_at_date advance_days post_time todayDay t none = .ok r ∧
      r.tod = t.tod ∧
      (dayOfWeek (t.day - advance_days) = .sun → r.day = t.day - advance_days - 2) ∧
      (dayOfWeek (t.day - advance_days) = .sat → r.day = t.day - advance_days - 1) ∧
      (dayOfWeek (t.day - advance_days) ≠ .sun → dayOfWeek (t.day - advance_days) ≠ .sat →
        r.day = t.day - advance_days) ∧
      dayOfWeek r.day ≠ .sat ∧ dayOfWeek r.day ≠ .sun := by
  have e : t.day + -advance_days = t.day - advance_days := by ring
  rcases emod7_cases (t.day - advance_days) with h | h | h | h | h | h | h
  · have hd : dayOfWeek (t.day - advance_days) = .mon := dayOfWeek_mon h
    refine ⟨⟨t.day - advance_days, t.tod⟩, ?_, rfl, fun hc => ?_, fun hc => ?_,
      fun _ _ => rfl, ?_, ?_⟩
    · simp only [get_post_at_date, addDays]; rw [e, hd]
    · rw [hd] at hc; exact absurd hc (by decide)
    · rw [hd] at hc; exact absurd hc (by decide)
    · show dayOfWeek (t.day - advance_days) ≠ _; rw [hd]; decide
    · show dayOfWeek (t.day - advance_days) ≠ _; rw [hd]; decide
  · have hd : dayOfWeek (t.day - advance_days) = .tue := dayOfWeek_tue h
    refine ⟨⟨t.day - advance_days, t.tod⟩, ?_, rfl, fun hc => ?_, fun hc => ?_,
      fun _ _ => rfl, ?_, ?_⟩
    · simp only [get_post_at_date, addDays]; rw [e, hd]
    · rw [hd] at hc; exact absurd hc (by decide)
    · rw [hd] at hc; exact absurd hc (by decide)
    · show dayOfWeek (t.day - advance_days) ≠ _; rw [hd]; decide
    · show dayOfWeek (t.day - advance_days) ≠ _; rw [hd]; decide
  · have hd : dayOfWeek (t.day - advance_days) = .wed := dayOfWeek_wed h
    refine ⟨⟨t.day - advance_days, t.tod⟩, ?_, rfl, fun hc => ?_, fun hc => ?_,
      fun _ _ => rfl, ?_, ?_⟩
    · simp only [get_post_at_date, addDays]; rw [e, hd]
    · rw [hd] at hc; exact absurd hc (by decide)
    · rw [hd] at hc; exact absurd hc (by decide)
    · show dayOfWeek (t.day - advance_days) ≠ _; rw [hd]; decide
    · show dayOfWeek (t.day - advance_days) ≠ _; rw [hd]; decide
  · have hd : dayOfWeek (t.day - advance_days) = .thu := dayOfWeek_thu h
    refine ⟨⟨t.day - advance_days, t.tod⟩, ?_, rfl, fun hc => ?_, fun hc => ?_,
      fun _ _ => rfl, ?_, ?_⟩
    · simp only [get_post_at_date, addDays]; rw [e, hd]
    · rw [hd] at hc; exact absurd hc (by decide)
    · rw [hd] at hc; exact absurd hc (by decide)
    · show dayOfWeek (t.day - advance_days) ≠ _; rw [hd]; decide
    · show dayOfWeek (t.day - advance_days) ≠ _; rw [hd]; decide
  · have hd : dayOfWeek (t.day - advance_days) = .fri := dayOfWeek_fri h
    refine ⟨⟨t.day - advance_days, t.tod⟩, ?_, rfl, fun hc => ?_, fun hc => ?_,
      fun _ _ => rfl, ?_, ?_⟩
    · simp only [get_post_at_date, addDays]; rw [e, hd]
    · rw [hd] at hc; exact absurd hc (by decide)
    · rw [hd] at hc; exact absurd hc (by decide)
    · show dayOfWeek (t.day - advance_days) ≠ _; rw [hd]; decide
    · show dayOfWeek (t.day - advance_days) ≠ _; rw [hd]; decide
  · have hd : dayOfWeek (t.day - advance_days) = .sat := dayOfWeek_sat h
    refine ⟨⟨t.day - advance_days + -1, t.tod⟩, ?_, rfl, fun hc => ?_, fun _ => ?_,
      fun _ hne => absurd hd hne, ?_, ?_⟩
    · simp only [get_post_at_date, addDays]; rw [e, hd]
    · rw [hd] at hc; exact absurd hc (by decide)
    · show t.day - advance_days + -1 = _; omega
    · show dayOfWeek (t.day - advance_days + -1) ≠ _
      rw [dayOfWeek_fri (by omega)]; decide
    · show dayOfWeek (t.day - advance_days + -1) ≠ _
      rw [dayOfWeek_fri (by omega)]; decide
  · have hd : dayOfWeek (t.day - advance_days) = .sun := dayOfWeek_sun h
    refine ⟨⟨t.day - advance_days + -2, t.tod⟩, ?_, rfl, fun _ => ?_, fun hc => ?_,
      fun hne _ => absurd hd hne, ?_, ?_⟩
    · simp only [get_post_at_date, addDays]; rw [e, hd]
    · show t.day - advance_days + -2 = _; omega
    · rw [hd] at hc; exact absurd hc (by decide)
    · show dayOfWeek (t.day - advance_days + -2) ≠ _
      rw [dayOfWeek_fri (by omega)]; decide
    · show dayOfWeek (t.day - advance_days + -2) ≠ _
      rw [dayOfWeek_fri (by omega)]; decide

/-- Witness for C1 at target 2021-12-31 (a Friday) 11:30 with one advance
day: the post-at lands on Thursday 2021-12-30 11:30. -/
theorem c1_get_post_at_date_weekday_witness :
    ∃ r, get_post_at_date 1 41400 0 ⟨18992, 41400⟩ none = .ok r ∧
      r.tod = (⟨18992, 41400⟩ : LocalDateTime).tod ∧
      (dayOfWeek ((18992 : Int) - 1) = .sun → r.day = 18992 - 1 - 2) ∧
      (dayOfWeek ((18992 : Int) - 1) = .sat → r.day = 18992 - 1 - 1) ∧
      (dayOfWeek ((18992 : Int) - 1) ≠ .sun → dayOfWeek ((18992 : Int) - 1) ≠ .sat →
        r.day = 18992 - 1) ∧
      dayOfWeek r.day ≠ .sat ∧ dayOfWeek r.day ≠ .sun :=
  c1_get_post_at_date_weekday 1 41400 0 ⟨18992, 41400⟩ (by decide)
    (by decide) (by decide)

/-- Helper: a successful `get_target_dates` output is the image of some
list of unfiltered dates under `weekend_shift`. -/
lemma get_target_dates_shape {tt td : Int} {inputs : List String}
    {ds : List LocalDateTime} (h : get_target_dates tt td inputs = some ds) :
    ∃ us : List LocalDateTime, ds = us.map weekend_shift := by
  unfold get_target_dates at h
  dsimp only at h
  rcases hu : (if inputs.isEmpty then some [(⟨td + 1, tt⟩ : LocalDateTime)]
      else parse_all ⟨td, tt⟩ inputs) with _ | l <;> rw [hu] at h
  · cases h
  · exact ⟨l, (Option.some.inj h).symm⟩

/-- Helper: `timestamp` after a whole-day shift. -/
lemma timestamp_addDays (dt : LocalDateTime) (k : Int) :
    timestamp (addDays dt k) = timestamp dt + k * 86400 := by
  unfold timestamp addDays; ring

/-- C2: every target date produced by `get_target_dates` has been weekend
shifted, the shift maps a Saturday +2 days and a Sunday +1 day to the
following Monday with the time-of-day unchanged and leaves weekdays
unchanged, and no produced date falls on a weekend. -/
theorem c2_target_dates_never_weekend (target_time todayDay : Int)
    (inputs : List String) (ds : List LocalDateTime)
    (hds : get_target_dates target_time todayDay inputs = some ds) :
    (∀ d ∈ ds, dayOfWeek d.day ≠ .sat ∧ dayOfWeek d.day ≠ .sun) ∧
    (∃ us : List LocalDateTime, ds = us.map weekend_shift) ∧
    (∀ dt : LocalDateTime,
      (dayOfWeek dt.day = .sat →
        weekend_shift dt = ⟨dt.day + 2, dt.tod⟩ ∧
        dayOfWeek (weekend_shift dt).day = .mon) ∧
      (dayOfWeek dt.day = .sun →
        weekend_shift dt = ⟨dt.day + 1, dt.tod⟩ ∧
        dayOfWeek (weekend_shift dt).day = .mon) ∧
      (dayOfWeek dt.day ≠ .sat → dayOfWeek dt.day ≠ .sun → weekend_shift dt = dt)) := by
  obtain ⟨us, hus⟩ := get_target_dates_shape hds
  refine ⟨?_, ⟨us, hus⟩, ?_⟩
  · intro d hd
    rw [hus] at hd
    obtain ⟨u, _, hu⟩ := List.mem_map.mp hd
    obtain ⟨h1, h2, _⟩ := weekend_shift_not_weekend u
    exact hu ▸ ⟨h1, h2⟩
  · intro dt
    obtain ⟨hsat, hsun, hother⟩ := weekend_shift_cases dt
    refine ⟨fun hc => ?_, fun hc => ?_, hother⟩
    · obtain ⟨hs, hm⟩ := hsat hc
      exact ⟨hs, by rw [hs]; exact hm⟩
    · obtain ⟨hs, hm⟩ := hsun hc
      exact ⟨hs, by rw [hs]; exact hm⟩

/-- Witness for C2: input 2022-01-01 (a Saturday) at target time 11:30 is
shifted to Monday 2022-01-03, 11:30. -/
theorem c2_target_dates_never_weekend_witness :
    (∀ d ∈ [(⟨18995, 41400⟩ : LocalDateTime)],
      dayOfWeek d.day ≠ .sat ∧ dayOfWeek d.day ≠ .sun) ∧
    (∃ us : List LocalDateTime,
      [(⟨18995, 41400⟩ : LocalDateTime)] = us.map weekend_shift) ∧
    (∀ dt : LocalDateTime,
      (dayOfWeek dt.day = .sat →
        weekend_shift dt = ⟨dt.day + 2, dt.tod⟩ ∧
        dayOfWeek (weekend_shift dt).day = .mon) ∧
      (dayOfWeek dt.day = .sun →
        weekend_shift dt = ⟨dt.day + 1, dt.tod⟩ ∧
        dayOfWeek (weekend_shift dt).day = .mon) ∧
      (dayOfWeek dt.day ≠ .sat → dayOfWeek dt.day ≠ .sun → weekend_shift dt = dt)) :=
  c2_target_dates_never_weekend 41400 0 ["2022-01-01"] [⟨18995, 41400⟩] (by rfl)

/-- C7: with an explicit post-on date, `get_post_at_date` parses it with
the configured post time-of-day, fails when the result is not strictly
before the target, and otherwise returns it unchanged — no weekend shift
is applied to an explicit override. -/
theorem c7_explicit_post_on (advance_days post_time todayDay : Int)
    (target : LocalDateTime) (s : String) (p : LocalDateTime)
    (hp : convert_date_string_to_local s ⟨todayDay, post_time⟩ = .ok p) :
    p.tod = post_time ∧
    (timestamp p < timestamp target →
      get_post_at_date advance_days post_time todayDay target (some s) = .ok p) ∧
    (timestamp target ≤ timestamp p →
      get_post_at_date advance_days post_time todayDay target (some s) =
        .error .schedulingOrderViolation) := by
  refine ⟨?_, fun hlt => ?_, fun hge => ?_⟩
  · have hp' := hp
    unfold convert_date_string_to_local at hp'
    rcases hpm : parseYMD s with _ | ⟨y, m, d⟩ <;> rw [hpm] at hp'
    · cases hp'
    · simp only [Except.ok.injEq] at hp'
      rw [← hp']
  · simp only [get_post_at_date]
    rw [hp]
    show (if timestamp p < timestamp target then (Except.ok p : Except PostAtError LocalDateTime)
      else .error .schedulingOrderViolation) = .ok p
    rw [if_pos hlt]
  · simp only [get_post_at_date]
    rw [hp]
    show (if timestamp p < timestamp target then (Except.ok p : Except PostAtError LocalDateTime)
      else .error .schedulingOrderViolation) = .error .schedulingOrderViolation
    rw [if_neg (not_lt.mpr hge)]

/-- Witness for C7: explicit post-on 2022-01-05 with post time 11:30,
target 2022-01-20 11:30: the parsed instant is before the target and is
returned as-is. -/
theorem c7_explicit_post_on_witness :
    (⟨18997, 41400⟩ : LocalDateTime).tod = (41400 : Int) ∧
    (timestamp ⟨18997, 41400⟩ < timestamp ⟨19012, 41400⟩ →
      get_post_at_date 1 41400 0 ⟨19012, 41400⟩ (some "2022-01-05") =
        .ok ⟨18997, 41400⟩) ∧
    (timestamp ⟨19012, 41400⟩ ≤ timestamp ⟨18997, 41400⟩ →
      get_post_at_date 1 41400 0 ⟨19012, 41400⟩ (some "2022-01-05") =
        .error .schedulingOrderViolation) :=
  c7_explicit_post_on 1 41400 0 ⟨19012, 41400⟩ "2022-01-05" ⟨18997, 41400⟩ (by rfl)

/-- C9: `validate_date_input` accepts a date string exactly when it parses
at the current time-of-day to an instant strictly later than now and
strictly less than 120 days in the future, and otherwise reports the
offending bound. -/
theorem c9_validate_date_input (input : String) (now : LocalDateTime) :
    (validate_date_input input now = .ok () ↔
      ∃ p, convert_date_string_to_local input now = .ok p ∧
        timestamp now < timestamp p ∧
        timestamp p < timestamp now + 120 * 86400) ∧
    (∀ p, convert_date_string_to_local input now = .ok p →
      timestamp p ≤ timestamp now →
      validate_date_input input now =
        .error ("Date " ++ input ++ " must be in the future")) ∧
    (∀ p, convert_date_string_to_local input now = .ok p →
      timestamp now + 120 * 86400 ≤ timestamp p →
      validate_date_input input now =
        .error ("Date " ++ input ++ " must not be more than 120 days in the future")) := by
  have hq : timestamp (addDays now 120) = timestamp now + 120 * 86400 :=
    timestamp_addDays now 120
  cases hc : convert_date_string_to_local input now with
  | error e =>
    refine ⟨⟨fun h => ?_, fun h => ?_⟩, fun p hp => ?_, fun p hp => ?_⟩
    · unfold validate_date_input at h
      rw [hc] at h
      cases h
    · obtain ⟨p, hp, _⟩ := h
      cases hp
    · cases hp
    · cases hp
  | ok q =>
    have hv : validate_date_input input now =
        (if timestamp q ≤ timestamp now then
          .error ("Date " ++ input ++ " must be in the future")
        else if timestamp (addDays now 120) ≤ timestamp q then
          .error ("Date " ++ input ++ " must not be more than 120 days in the future")
        else .ok ()) := by
      unfold validate_date_input
      rw [hc]
    by_cases h1 : timestamp q ≤ timestamp now
    · rw [if_pos h1] at hv
      refine ⟨⟨fun h => ?_, fun h => ?_⟩, fun p hp _ => ?_, fun p hp h120 => ?_⟩
      · rw [hv] at h; cases h
      · obtain ⟨p, hp, hlt, _⟩ := h
        obtain rfl : q = p := Except.ok.inj hp
        omega
      · exact hv
      · obtain rfl : q = p := Except.ok.inj hp
        omega
    · by_cases h2 : timestamp (addDays now 120) ≤ timestamp q
      · rw [if_neg h1, if_pos h2] at hv
        rw [hq] at h2
        refine ⟨⟨fun h => ?_, fun h => ?_⟩, fun p hp hle => ?_, fun p hp _ => ?_⟩
        · rw [hv] at h; cases h
        · obtain ⟨p, hp, _, hlt⟩ := h
          obtain rfl : q = p := Except.ok.inj hp
          omega
        · obtain rfl : q = p := Except.ok.inj hp
          omega
        · exact hv
      · rw [if_neg h1, if_neg h2] at hv
        rw [hq] at h2
        refine ⟨⟨fun _ => ?_, fun _ => hv⟩, fun p hp hle => ?_, fun p hp h120 => ?_⟩
        · exact ⟨q, rfl, by omega, by omega⟩
        · obtain rfl : q = p := Except.ok.inj hp
          omega
        · obtain rfl : q = p := Except.ok.inj hp
          omega

/-- Witness for C9: from day 18990, input 2022-01-05 (day 18997, 7 days
ahead) is accepted; from day 18997 it is rejected as not in the future;
from day 18800 (197 days earlier) it is rejected as beyond 120 days. -/
theorem c9_validate_date_input_witness :
    validate_date_input "2022-01-05" ⟨18990, 0⟩ = .ok () ∧
    validate_date_input "2022-01-05" ⟨18997, 0⟩ =
      .error ("Date " ++ "2022-01-05" ++ " must be in the future") ∧
    validate_date_input "2022-01-05" ⟨18800, 0⟩ =
      .error ("Date " ++ "2022-01-05" ++ " must not be more than 120 days in the future") :=
  ⟨((c9_validate_date_input "2022-01-05" ⟨18990, 0⟩).1).mpr
      ⟨⟨18997, 0⟩, by rfl, by decide, by decide⟩,
    (c9_validate_date_input "2022-01-05" ⟨18997, 0⟩).2.1 ⟨18997, 0⟩ (by rfl) (by decide),
    (c9_validate_date_input "2022-01-05" ⟨18800, 0⟩).2.2 ⟨18997, 0⟩ (by rfl) (by decide)⟩

/-- C5 counterexample: `select_random_member` takes no exclude set.  With
roster `["a"]` and exclude set `{"a"}` the eligible subset
(roster minus exclude) is empty and `"a"` is excluded, yet the selector
still returns `"a"`. -/
theorem c5_select_excluded_counterexample :
    select_random_member ["a"] 0 = some "a" ∧
    ("a" ∈ (["a"] : List String)) ∧
    (["a"] : List String).filter (fun m => !((["a"] : List String).contains m)) = [] := by
  refine ⟨rfl, by decide, by decide⟩

/-- C5 amended: `select_random_member` draws from the full roster — it
returns `none` exactly when the roster is empty, and any member it
returns belongs to the roster.  Exclusion is not its concern: the reroll
caller discards draws that are in its exclude list. -/
theorem c5_select_random_member_roster (members : List String) (seed : Nat) :
    (select_random_member members seed = none ↔ members = []) ∧
    (∀ m, select_random_member members seed = some m → m ∈ members) := by
  constructor
  · constructor
    · intro h
      cases members with
      | nil => rfl
      | cons a l =>
        exfalso
        unfold select_random_member at h
        rw [List.get?_eq_none] at h
        have := Nat.mod_lt seed (show 0 < (a :: l).length by simp)
        omega
    · intro h; subst h; rfl
  · intro m hm
    unfold select_random_member at hm
    exact List.get?_mem hm

/-- Witness for C5 amended, on the two-member roster `["a", "b"]` with
seed 1: the draw is `"b"`, a member of the roster, and not `none`. -/
theorem c5_select_random_member_roster_witness :
    (select_random_member ["a", "b"] 1 = none ↔ (["a", "b"] : List String) = []) ∧
    ("b" ∈ (["a", "b"] : List String)) :=
  ⟨(c5_select_random_member_roster ["a", "b"] 1).1,
    (c5_select_random_member_roster ["a", "b"] 1).2 "b" (by rfl)⟩

/-- Helper: one unparseable string anywhere in the list makes the parsing
loop of `get_target_dates` panic (`unwrap`), modelled as `none`. -/
lemma parse_all_none {t : LocalDateTime} {l : List String} {s : String}
    (hs : s ∈ l) (hp : parseYMD s = none) : parse_all t l = none := by
  induction l with
  | nil => cases hs
  | cons a rest ih =>
    unfold parse_all
    rcases List.mem_cons.mp hs with rfl | hmem
    · unfold convert_date_string_to_local
      rw [hp]
    · cases convert_date_string_to_local a t with
      | error e => rfl
      | ok d => rw [ih hmem]

/-- Helper: when every string parses, the parsing loop succeeds and keeps
the list length. -/
lemma parse_all_ok {t : LocalDateTime} {l : List String}
    (h : ∀ s ∈ l, (parseYMD s).isSome) :
    ∃ ds, parse_all t l = some ds ∧ ds.length = l.length := by
  induction l with
  | nil => exact ⟨[], rfl, rfl⟩
  | cons a rest ih =>
    obtain ⟨ds, hds, hlen⟩ := ih (fun s hs => h s (List.mem_cons_of_mem a hs))
    have ha := h a (List.mem_cons_self a rest)
    rcases hpa : parseYMD a with _ | ⟨y, m, d⟩
    · rw [hpa] at ha; cases ha
    · refine ⟨⟨daysFromCivil y m d, t.tod⟩ :: ds, ?_, by simp [hlen]⟩
      unfold parse_all convert_date_string_to_local
      rw [hpa, hds]

/-- C6 counterexample: a batch holding the parseable date 2022-01-05 and
an unparseable string resolves to nothing at all — the `unwrap` panic
aborts the whole batch, so the good date is not resolved either, against
the claim that the other dates are still scheduled. -/
theorem c6_unparseable_aborts_batch_counterexample :
    get_target_dates 41400 0 ["2022-01-05", "not a date"] = none ∧
    convert_date_string_to_local "2022-01-05" ⟨0, 41400⟩ = .ok ⟨18997, 41400⟩ :=
  ⟨rfl, rfl⟩

/-- C6 amended: an unparseable date string among the inputs makes
`get_target_dates` panic, aborting the entire batch with no date
resolved; when every input parses (as the CLI validator guarantees), the
batch resolves completely, one target per input (or the single
"tomorrow" target when there is no input). -/
theorem c6_unparseable_aborts_batch (target_time todayDay : Int)
    (inputs : List String) :
    ((∃ s ∈ inputs, parseYMD s = none) →
      get_target_dates target_time todayDay inputs = none) ∧
    ((∀ s ∈ inputs, (parseYMD s).isSome) →
      ∃ ds, get_target_dates target_time todayDay inputs = some ds ∧
        (inputs = [] → ds.length = 1) ∧
        (inputs ≠ [] → ds.length = inputs.length)) := by
  constructor
  · rintro ⟨s, hs, hp⟩
    cases inputs with
    | nil => cases hs
    | cons a rest =>
      unfold get_target_dates
      dsimp only
      rw [if_neg (by simp)]
      rw [parse_all_none hs hp]
  · intro hall
    cases inputs with
    | nil =>
      refine ⟨[weekend_shift ⟨todayDay + 1, target_time⟩], ?_, fun _ => rfl,
        fun hne => absurd rfl hne⟩
      unfold get_target_dates
      rfl
    | cons a rest =>
      obtain ⟨ds, hds, hlen⟩ :=
        @parse_all_ok ⟨todayDay, target_time⟩ (a :: rest) hall
      refine ⟨ds.map weekend_shift, ?_, ?_, ?_⟩
      · unfold get_target_dates
        dsimp only
        rw [if_neg (by simp)]
        rw [hds]
      · exact fun hc => absurd hc (List.cons_ne_nil a rest)
      · intro _
        rw [List.length_map, hlen]

/-- Witness for C6 amended: the batch `["2022-01-05", "not a date"]`
resolves to nothing, and the batch `["2022-01-05"]` resolves to exactly
one target. -/
theorem c6_unparseable_aborts_batch_witness :
    get_target_dates 41400 0 ["2022-01-05", "not a date"] = none ∧
    ∃ ds, get_target_dates 41400 0 ["2022-01-05"] = some ds ∧
      ((["2022-01-05"] : List String) = [] → ds.length = 1) ∧
      ((["2022-01-05"] : List String) ≠ [] → ds.length = (["2022-01-05"] : List String).length) :=
  ⟨(c6_unparseable_aborts_batch 41400 0 ["2022-01-05", "not a date"]).1
      ⟨"not a date", by decide, by rfl⟩,
    (c6_unparseable_aborts_batch 41400 0 ["2022-01-05"]).2
      (by intro s hs; rw [List.mem_singleton.mp hs]; rfl)⟩

/-- C4: on the roster `["a", "b", "c"]`, rejecting the first two proposals
(seeds 0 and 1 draw `"a"` then `"b"`) makes `reroll` stop with "You have
excluded all members!" even though `"c"` was never proposed and is not in
the exclude list — the `exclude.len() + 1 == len_limit` guard fires one
member too early, contradicting its own message and the documented
scenario in which the third member is still proposed. -/
theorem c4_reroll_stops_before_last_member :
    reroll ["a", "b", "c"] [0, 1, 2] [false, false, false] = .allExcluded ["a", "b"] ∧
    "c" ∉ (["a", "b"] : List String) :=
  ⟨rfl, by decide⟩

/-- Helper for C3: the remote and local duplicate checks of the `joke`
loop body, for a candidate that passed the past-deadline check. -/
lemma joke_step_checks (now : LocalDateTime) (already : List LocalDateTime)
    (members : List String) (in_progress : List Int) (seed : Nat)
    (post_at : LocalDateTime) (hfut : timestamp now < timestamp post_at) :
    (joke_step now already members in_progress seed post_at = .alreadyScheduledRemote ↔
      ∃ mess ∈ already, mess.day = post_at.day) ∧
    ((¬ ∃ mess ∈ already, mess.day = post_at.day) →
      (joke_step now already members in_progress seed post_at = .alreadyScheduledLocal ↔
        timestamp post_at ∈ in_progress)) := by
  have hbridge : already.any (fun mess => mess.day == post_at.day) = true ↔
      ∃ mess ∈ already, mess.day = post_at.day := by
    simp [List.any_eq_true]
  have hlbridge : in_progress.any (fun r_post_at => r_post_at == timestamp post_at) = true ↔
      timestamp post_at ∈ in_progress := by
    simp [List.any_eq_true]
  unfold joke_step
  rw [if_neg (not_le.mpr hfut)]
  by_cases hrem : already.any (fun mess => mess.day == post_at.day) = true
  · rw [if_pos hrem]
    exact ⟨⟨fun _ => hbridge.mp hrem, fun _ => rfl⟩,
      fun hno => absurd (hbridge.mp hrem) hno⟩
  · rw [if_neg hrem]
    have hnorem : ¬ ∃ mess ∈ already, mess.day = post_at.day :=
      fun hex => hrem (hbridge.mpr hex)
    by_cases hloc : in_progress.any (fun r_post_at => r_post_at == timestamp post_at) = true
    · rw [if_pos hloc]
      exact ⟨⟨fun h => JokeOutcome.noConfusion h, fun hex => absurd hex hnorem⟩,
        fun _ => ⟨fun _ => hlbridge.mp hloc, fun _ => rfl⟩⟩
    · rw [if_neg hloc]
      have hnoloc : timestamp post_at ∉ in_progress :=
        fun hm => hloc (hlbridge.mpr hm)
      cases hsel : select_random_member members seed with
      | none =>
        exact ⟨⟨fun h => JokeOutcome.noConfusion h, fun hex => absurd hex hnorem⟩,
          fun _ => ⟨fun h => JokeOutcome.noConfusion h, fun hm => absurd hm hnoloc⟩⟩
      | some m =>
        exact ⟨⟨fun h => JokeOutcome.noConfusion h, fun hex => absurd hex hnorem⟩,
          fun _ => ⟨fun h => JokeOutcome.noConfusion h, fun hm => absurd hm hnoloc⟩⟩

/-- Helper for C3: with no explicit post-on argument, `get_post_at_date`
always succeeds. -/
lemma get_post_at_date_auto_ok (a pt td : Int) (t : LocalDateTime) :
    ∃ pa, get_post_at_date a pt td t none = .ok pa := by
  unfold get_post_at_date
  dsimp only
  cases dayOfWeek (addDays t (-a)).day <;> exact ⟨_, rfl⟩

/-- Helper for C3: with no explicit post-on argument, the `joke` loop
processes every target date of the batch, whatever the per-date
outcomes. -/
lemma joke_go_total (advance_days post_time todayDay : Int) (now : LocalDateTime)
    (already : List LocalDateTime) (members : List String) (seeds : Nat → Nat) :
    ∀ (targets : List LocalDateTime) (i : Nat) (in_progress : List Int),
    ∃ outs, joke_go advance_days post_time todayDay now already members none seeds
        i in_progress targets = some outs ∧ outs.length = targets.length := by
  intro targets
  induction targets with
  | nil => exact fun i ip => ⟨[], rfl, rfl⟩
  | cons t ts ih =>
    intro i ip
    obtain ⟨pa, hpa⟩ := get_post_at_date_auto_ok advance_days post_time todayDay t
    simp only [joke_go]
    rw [hpa]
    dsimp only
    cases hstep : joke_step now already members ip (seeds i) pa <;>
      dsimp only <;>
      first
      | (obtain ⟨outs, houts, hlen⟩ := ih (i + 1) ip
         rw [houts]
         exact ⟨_, rfl, by simp [hlen]⟩)
      | (obtain ⟨outs, houts, hlen⟩ := ih (i + 1) (ip ++ [timestamp pa])
         rw [houts]
         exact ⟨_, rfl, by simp [hlen]⟩)

/-- C3: in a `joke` batch, a future candidate is rejected as a remote
duplicate exactly when an already-scheduled message shares its calendar
date, and (when no remote duplicate exists) as a local duplicate exactly
when an earlier candidate of the batch recorded the identical instant; a
rejection skips only that candidate, the loop still processing every
target date — in particular, of two batch dates resolving to the same
post-at instant, the first is scheduled and the second is rejected as a
local duplicate. -/
theorem c3_duplicate_guard :
    (∀ (now : LocalDateTime) (already : List LocalDateTime) (members : List String)
      (in_progress : List Int) (seed : Nat) (post_at : LocalDateTime),
      timestamp now < timestamp post_at →
      ((joke_step now already members in_progress seed post_at = .alreadyScheduledRemote ↔
        ∃ mess ∈ already, mess.day = post_at.day) ∧
       ((¬ ∃ mess ∈ already, mess.day = post_at.day) →
        (joke_step now already members in_progress seed post_at = .alreadyScheduledLocal ↔
          timestamp post_at ∈ in_progress)))) ∧
    (∀ (advance_days post_time todayDay : Int) (now : LocalDateTime)
      (already : List LocalDateTime) (members : List String) (seeds : Nat → Nat)
      (targets : List LocalDateTime) (i : Nat) (in_progress : List Int),
      ∃ outs, joke_go advance_days post_time todayDay now already members none seeds
          i in_progress targets = some outs ∧ outs.length = targets.length) ∧
    (joke 1 41400 41400 18900 ⟨18900, 0⟩ [] ["user_1"]
        ["2021-12-31", "2021-12-31"] none (fun _ => 0) =
      some [(⟨18992, 41400⟩, .scheduled "user_1" ⟨18991, 41400⟩),
            (⟨18992, 41400⟩, .alreadyScheduledLocal)]) :=
  ⟨fun now already members in_progress seed post_at hfut =>
      joke_step_checks now already members in_progress seed post_at hfut,
    fun advance_days post_time todayDay now already members seeds targets i in_progress =>
      joke_go_total advance_days post_time todayDay now already members seeds
        targets i in_progress,
    rfl⟩

/-- Witness for C3, instantiating the duplicate checks at a concrete
future candidate whose date clashes with a remote schedule, and the batch
totality at a single-target batch. -/
theorem c3_duplicate_guard_witness :
    ((joke_step ⟨0, 0⟩ [⟨5, 100⟩] ["u"] [] 0 ⟨5, 200⟩ = .alreadyScheduledRemote ↔
      ∃ mess ∈ [(⟨5, 100⟩ : LocalDateTime)], mess.day = (⟨5, 200⟩ : LocalDateTime).day) ∧
     ((¬ ∃ mess ∈ [(⟨5, 100⟩ : LocalDateTime)], mess.day = (⟨5, 200⟩ : LocalDateTime).day) →
      (joke_step ⟨0, 0⟩ [⟨5, 100⟩] ["u"] [] 0 ⟨5, 200⟩ = .alreadyScheduledLocal ↔
        timestamp ⟨5, 200⟩ ∈ ([] : List Int)))) ∧
    (∃ outs, joke_go 1 41400 0 ⟨0, 0⟩ [] ["u"] none (fun _ => 0)
        0 [] [⟨5, 200⟩] = some outs ∧ outs.length = [(⟨5, 200⟩ : LocalDateTime)].length) :=
  ⟨c3_duplicate_guard.1 ⟨0, 0⟩ [⟨5, 100⟩] ["u"] [] 0 ⟨5, 200⟩ (by decide),
    c3_duplicate_guard.2.1 1 41400 0 ⟨0, 0⟩ [] ["u"] (fun _ => 0) [⟨5, 200⟩] 0 []⟩

/-- Helper for C10: if the cursor chain reaches a terminal response within
`n` steps, the scheduled-messages pagination loop returns within `n + 1`
iterations. -/
lemma lsm_go_terminates {α : Type} (api : Option String → ListPageResponse α) :
    ∀ (n : Nat) (c : Option String) (acc : List α),
    terminalResponse (api (chainFrom api c n)) = true →
    ∃ r, list_scheduled_messages_go api (n + 1) c acc = some r := by
  intro n
  induction n with
  | zero =>
    intro c acc hterm
    unfold chainFrom at hterm
    unfold list_scheduled_messages_go
    cases hA : api c with
    | mk content md =>
      rw [hA] at hterm
      cases content with
      | err e => exact ⟨acc, rfl⟩
      | ok page =>
        cases md with
        | none => exact Bool.noConfusion hterm
        | some meta =>
          cases meta with
          | mk nc =>
            cases nc with
            | none => exact ⟨acc ++ page, rfl⟩
            | some s =>
              have hs : s.isEmpty = true := hterm
              exact ⟨acc ++ page, by dsimp only; rw [if_pos hs]⟩
  | succ n ih =>
    intro c acc hterm
    unfold chainFrom at hterm
    unfold list_scheduled_messages_go
    cases hA : api c with
    | mk content md =>
      cases content with
      | err e => exact ⟨acc, rfl⟩
      | ok page =>
        cases md with
        | none =>
          have hAdv : advanceCursor api c = c := by
            unfold advanceCursor; rw [hA]
          rw [hAdv] at hterm
          exact ih c (acc ++ page) hterm
        | some meta =>
          cases meta with
          | mk nc =>
            cases nc with
            | none => exact ⟨acc ++ page, rfl⟩
            | some s =>
              by_cases hs : s.isEmpty = true
              · exact ⟨acc ++ page, by dsimp only; rw [if_pos hs]⟩
              · have hAdv : advanceCursor api c = some s := by
                  unfold advanceCursor; rw [hA]; dsimp only; rw [if_neg hs]
                rw [hAdv] at hterm
                obtain ⟨r, hr⟩ := ih (some s) (acc ++ page) hterm
                exact ⟨r, by dsimp only; rw [if_neg hs]; exact hr⟩

/-- Helper for C10: the members pagination loop under the same chain
condition. -/
lemma lmc_go_terminates (api : Option String → ListPageResponse String) :
    ∀ (n : Nat) (c : Option String) (acc : List String),
    terminalResponse (api (chainFrom api c n)) = true →
    ∃ r, list_members_for_channel_go api (n + 1) c acc = some r := by
  intro n
  induction n with
  | zero =>
    intro c acc hterm
    unfold chainFrom at hterm
    unfold list_members_for_channel_go
    cases hA : api c with
    | mk content md =>
      rw [hA] at hterm
      cases content with
      | err e => exact ⟨.error e, rfl⟩
      | ok page =>
        cases md with
        | none => exact Bool.noConfusion hterm
        | some meta =>
          cases meta with
          | mk nc =>
            cases nc with
            | none => exact ⟨.ok (acc ++ page), rfl⟩
            | some s =>
              have hs : s.isEmpty = true := hterm
              exact ⟨.ok (acc ++ page), by dsimp only; rw [if_pos hs]⟩
  | succ n ih =>
    intro c acc hterm
    unfold chainFrom at hterm
    unfold list_members_for_channel_go
    cases hA : api c with
    | mk content md =>
      cases content with
      | err e => exact ⟨.error e, rfl⟩
      | ok page =>
        cases md with
        | none =>
          have hAdv : advanceCursor api c = c := by
            unfold advanceCursor; rw [hA]
          rw [hAdv] at hterm
          exact ih c (acc ++ page) hterm
        | some meta =>
          cases meta with
          | mk nc =>
            cases nc with
            | none => exact ⟨.ok (acc ++ page), rfl⟩
            | some s =>
              by_cases hs : s.isEmpty = true
              · exact ⟨.ok (acc ++ page), by dsimp only; rw [if_pos hs]⟩
              · have hAdv : advanceCursor api c = some s := by
                  unfold advanceCursor; rw [hA]; dsimp only; rw [if_neg hs]
                rw [hAdv] at hterm
                obtain ⟨r, hr⟩ := ih (some s) (acc ++ page) hterm
                exact ⟨r, by dsimp only; rw [if_neg hs]; exact hr⟩

/-- Helper for C10: a successful response without `response_metadata`
leaves the request unchanged and the scheduled-messages loop spins
forever. -/
lemma lsm_go_no_metadata {α : Type} (api : Option String → ListPageResponse α)
    (cursor : Option String) (page : List α)
    (hA : api cursor = ⟨.ok page, none⟩) :
    ∀ fuel acc, list_scheduled_messages_go api fuel cursor acc = none := by
  intro fuel
  induction fuel with
  | zero => intro _; rfl
  | succ fuel ih =>
    intro acc
    unfold list_scheduled_messages_go
    rw [hA]
    exact ih (acc ++ page)

/-- Helper for C10: same non-termination for the members loop. -/
lemma lmc_go_no_metadata (api : Option String → ListPageResponse String)
    (cursor : Option String) (page : List String)
    (hA : api cursor = ⟨.ok page, none⟩) :
    ∀ fuel acc, list_members_for_channel_go api fuel cursor acc = none := by
  intro fuel
  induction fuel with
  | zero => intro _; rfl
  | succ fuel ih =>
    intro acc
    unfold list_members_for_channel_go
    rw [hA]
    exact ih (acc ++ page)

/-- C10: both pagination loops terminate whenever following the cursor
chain eventually meets an error response or a successful response whose
metadata carries an absent or empty `next_cursor`; and a successful
response that omits `response_metadata` leaves the request unchanged, so
under a deterministic API the loop never terminates, whatever the fuel. -/
theorem c10_pagination (α : Type) :
    (∀ (api : Option String → ListPageResponse α) (c0 : Option String),
      (∃ n, terminalResponse (api (chainFrom api c0 n)) = true) →
      ∃ fuel r, list_scheduled_messages_go api fuel c0 [] = some r) ∧
    (∀ (api : Option String → ListPageResponse String) (c0 : Option String),
      (∃ n, terminalResponse (api (chainFrom api c0 n)) = true) →
      ∃ fuel r, list_members_for_channel_go api fuel c0 [] = some r) ∧
    (∀ (api : Option String → ListPageResponse α) (cursor : Option String)
      (page : List α), api cursor = ⟨.ok page, none⟩ →
      ∀ fuel acc, list_scheduled_messages_go api fuel cursor acc = none) ∧
    (∀ (api : Option String → ListPageResponse String) (cursor : Option String)
      (page : List String), api cursor = ⟨.ok page, none⟩ →
      ∀ fuel acc, list_members_for_channel_go api fuel cursor acc = none) :=
  ⟨fun api c0 hex =>
      let ⟨n, hn⟩ := hex
      let ⟨r, hr⟩ := lsm_go_terminates api n c0 [] hn
      ⟨n + 1, r, hr⟩,
    fun api c0 hex =>
      let ⟨n, hn⟩ := hex
      let ⟨r, hr⟩ := lmc_go_terminates api n c0 [] hn
      ⟨n + 1, r, hr⟩,
    fun api cursor page hA => lsm_go_no_metadata api cursor page hA,
    fun api cursor page hA => lmc_go_no_metadata api cursor page hA⟩

/-- Witness for C10: an API whose single response carries an empty cursor
terminates both loops at once; an API whose response has no metadata
never terminates them, here checked at fuel 5. -/
theorem c10_pagination_witness :
    (∃ fuel r, list_scheduled_messages_go
      (fun _ => (⟨.ok [(0 : Nat)], some ⟨some ""⟩⟩ : ListPageResponse Nat))
      fuel none [] = some r) ∧
    (∃ fuel r, list_members_for_channel_go
      (fun _ => (⟨.ok ["m"], some ⟨some ""⟩⟩ : ListPageResponse String))
      fuel none [] = some r) ∧
    (list_scheduled_messages_go
      (fun _ => (⟨.ok [(0 : Nat)], none⟩ : ListPageResponse Nat)) 5 none [] = none) ∧
    (list_members_for_channel_go
      (fun _ => (⟨.ok ["m"], none⟩ : ListPageResponse String)) 5 none [] = none) :=
  ⟨(c10_pagination Nat).1 (fun _ => ⟨.ok [0], some ⟨some ""⟩⟩) none ⟨0, rfl⟩,
    (c10_pagination Nat).2.1 (fun _ => ⟨.ok ["m"], some ⟨some ""⟩⟩) none ⟨0, rfl⟩,
    (c10_pagination Nat).2.2.1 (fun _ => ⟨.ok [0], none⟩) none [0] rfl 5 [],
    (c10_pagination Nat).2.2.2 (fun _ => ⟨.ok ["m"], none⟩) none ["m"] rfl 5 []⟩
